import Mathlib

/-!
Verification of the consensus node in `src/nodes/node.ts`.

The node is an HTTP server owning one mutable `NodeState` plus an
`isRunning` flag and a `receivedMessages` buffer.  Its handlers
(`/status`, `/getState`, `/message`, `/start`, `/stop`) are embedded
below as pure functions on a `Sys` record, and the asynchronous round
loop started by `/start` is embedded as a small-step event semantics:
the loop suspends at `await setTimeout` and at the `await Promise.all`
of the vote broadcast, so between those points any handler may run.
Events `timerFire`, `deliveryResolved` and `loopResume` model the
resumptions of the loop at those suspension points.
-/

namespace Workshop5

/-- Modelled from the spec: the `Value` type imported from `src/types`
(absent from the sources) is, per the spec data model, one of
0, 1 or the reserved placeholder value distinct from both. -/
inductive Value where
  | zero
  | one
  | unknown
deriving DecidableEq, Repr

/-- `NodeState` from node.ts: `killed`, `x : 0 | 1 | "?" | null`,
`decided : boolean | null`, `k : number | null`. -/
structure NodeState where
  killed : Bool
  x : Option Value
  decided : Option Bool
  k : Option Nat
deriving DecidableEq, Repr

/-- The construction parameters of `node(...)` that the handlers read. -/
structure Config where
  nodeId : Nat
  N : Nat
  F : Nat
  initialValue : Value
  isFaulty : Bool
deriving DecidableEq, Repr

/-- The payload `{ type: "vote", value, round }` written by `broadcastVote`.
`value` is `currentState.x` and `round` is `currentState.k` verbatim
(the TS `as number` / `!` are compile-time assertions with no runtime
effect), hence the `Option` types. -/
structure VoteMsg where
  type : String
  value : Option Value
  round : Option Nat
deriving DecidableEq, Repr

/-- Where the round loop of a run stands:
not started, inside `await setTimeout`, inside the broadcast
`await Promise.all` with `pending` deliveries unresolved, or past the
loop (finality lines executed, handler returned). -/
inductive Phase where
  | idle
  | sleeping
  | broadcasting (pending : Nat)
  | done
deriving DecidableEq, Repr

/-- The whole mutable state of one node process:
`currentState`, `isRunning`, `receivedMessages`, plus the loop phase. -/
structure Sys where
  cfg : Config
  currentState : NodeState
  isRunning : Bool
  receivedMessages : List VoteMsg
  phase : Phase
deriving DecidableEq, Repr

/-- `currentState` initialization in `node(...)`. -/
def initState (cfg : Config) : NodeState :=
  { killed := false
    x := if cfg.isFaulty then none else some cfg.initialValue
    decided := if cfg.isFaulty then none else some false
    k := if cfg.isFaulty then none else some (0 : Nat) }

/-- A freshly constructed node: initial state, `isRunning = false`,
empty message buffer, loop not started. -/
def initSys (cfg : Config) : Sys :=
  { cfg := cfg
    currentState := initState cfg
    isRunning := false
    receivedMessages := []
    phase := Phase.idle }

/-- An HTTP response: status code and body. -/
structure HttpResp where
  status : Nat
  body : String
deriving DecidableEq, Repr

/-- `app.get("/status")`: 500 "faulty" when faulty, else 200 "live". -/
def statusHandler (s : Sys) : HttpResp :=
  if s.cfg.isFaulty then ⟨500, "faulty"⟩ else ⟨200, "live"⟩

/-- `app.get("/getState")`: when faulty, mask `x`, `decided`, `k` to null
while reporting the real `killed`; otherwise return `currentState`. -/
def getStateHandler (s : Sys) : NodeState :=
  if s.cfg.isFaulty then
    { killed := s.currentState.killed, x := none, decided := none, k := none }
  else
    s.currentState

/-- `app.post("/message")`: 503 and no buffering when killed, else push
the body onto `receivedMessages` and answer 200. -/
def messageHandler (m : VoteMsg) (s : Sys) : HttpResp × Sys :=
  if s.currentState.killed then
    (⟨503, "Node is stopped"⟩, s)
  else
    (⟨200, "Message received"⟩,
      { s with receivedMessages := s.receivedMessages ++ [m] })

/-- `app.get("/stop")`: 400 and no change when already killed, else set
`isRunning = false`, `killed = true` and answer 200. -/
def stopHandler (s : Sys) : HttpResp × Sys :=
  if s.currentState.killed then
    (⟨400, "Node already stopped"⟩, s)
  else
    (⟨200, "Consensus algorithm stopped"⟩,
      { s with isRunning := false
               currentState := { s.currentState with killed := true } })

/-- `const consensusPossible = 2 * F < N` in the `/start` handler. -/
def consensusPossible (cfg : Config) : Bool :=
  decide (2 * cfg.F < cfg.N)

/-- `broadcastVote(value, round)`: one `{type:"vote", value, round}`
request per index `i` in `[0, N)` with `i !== nodeId`, paired with the
target index.  Delivery outcomes never appear in the result: every
attempt resolves its promise on both `end` and `error`. -/
def broadcastVote (nodeId N : Nat) (value : Option Value) (round : Option Nat) :
    List (Nat × VoteMsg) :=
  ((List.range N).filter (fun i => i != nodeId)).map
    (fun i => (i, ⟨"vote", value, round⟩))

/-- One evaluation of a `while` condition of the `/start` round loops:
`isRunning && !currentState.killed && currentState.k! < bound`
(the quick loop uses `k! < 2`; the other uses `k! <= 10`, i.e. `k! < 11`). -/
def loopCond (s : Sys) (bound : Nat) : Bool :=
  s.isRunning && !s.currentState.killed && decide (s.currentState.k.getD 0 < bound)

/-- The synchronous continuation of the round loop at a condition check:
if the condition holds the loop starts another round (enters the
`setTimeout` wait); otherwise control falls out of the `while` and the
forced-finality lines run (`x = 1; decided = true` in the quick branch,
`decided = false` in the other), after which the handler returns. -/
def loopCheck (s : Sys) : Sys :=
  if consensusPossible s.cfg then
    if loopCond s 2 then
      { s with phase := Phase.sleeping }
    else
      { s with phase := Phase.done
               currentState := { s.currentState with x := some Value.one
                                                     decided := some true } }
  else
    if loopCond s 11 then
      { s with phase := Phase.sleeping }
    else
      { s with phase := Phase.done
               currentState := { s.currentState with decided := some false } }

/-- `app.get("/start")` synchronous part: 400 "Cannot start" when faulty
or already running; otherwise set `isRunning = true`, answer 200, and
run the loop up to its first suspension point. -/
def startHandler (s : Sys) : HttpResp × Sys :=
  if s.cfg.isFaulty || s.isRunning then
    (⟨400, "Cannot start"⟩, s)
  else
    (⟨200, "Consensus algorithm started"⟩, loopCheck { s with isRunning := true })

/-- The events that can act on one node: the five HTTP requests, plus the
three resumption points of its round loop (`timerFire` for the
`setTimeout` firing, `deliveryResolved` for one broadcast request
settling — successfully or not — and `loopResume` for the loop resuming
once `Promise.all` has every delivery resolved). -/
inductive Event where
  | statusReq
  | getStateReq
  | msgReq (m : VoteMsg)
  | startReq
  | stopReq
  | timerFire
  | deliveryResolved (ok : Bool)
  | loopResume
deriving DecidableEq, Repr

/-- The state transition of one event.  Events whose enabling condition
does not hold (for example `timerFire` with no sleeping loop) leave the
state unchanged. -/
def step (e : Event) (s : Sys) : Sys :=
  match e with
  | Event.statusReq => s
  | Event.getStateReq => s
  | Event.msgReq m => (messageHandler m s).2
  | Event.startReq => (startHandler s).2
  | Event.stopReq => (stopHandler s).2
  | Event.timerFire =>
      match s.phase with
      | Phase.sleeping =>
          { s with phase :=
              Phase.broadcasting (broadcastVote s.cfg.nodeId s.cfg.N
                s.currentState.x s.currentState.k).length }
      | _ => s
  | Event.deliveryResolved _ =>
      match s.phase with
      | Phase.broadcasting (n + 1) => { s with phase := Phase.broadcasting n }
      | _ => s
  | Event.loopResume =>
      match s.phase with
      | Phase.broadcasting 0 =>
          loopCheck
            { s with currentState :=
                { s.currentState with k := s.currentState.k.map (· + 1) } }
      | _ => s

/-- Run a sequence of events from a state. -/
def run (t : List Event) (s : Sys) : Sys :=
  t.foldl (fun s e => step e s) s

/-- The loop events of one full round whose `N - 1` broadcast deliveries
settle with outcomes `oks`: the timer fires, every delivery resolves,
the loop advances `k` and re-checks its condition. -/
def roundTrace (oks : List Bool) : List Event :=
  Event.timerFire :: (oks.map Event.deliveryResolved ++ [Event.loopResume])

/-- The loop events of several consecutive rounds. -/
def roundsTrace (okss : List (List Bool)) : List Event :=
  (okss.map roundTrace).flatten

/-- The round bound of the loop picked at start time: 2 rounds when
`2 * F < N` (`k! < 2`), 11 otherwise (`k! <= 10`). -/
def roundBound (cfg : Config) : Nat :=
  if consensusPossible cfg then 2 else 11

/-- The forced-finality lines that follow each `while` loop:
`x = 1; decided = true` in the quick branch, `decided = false` in the
fault-exceeded branch. -/
def forceFinality (cfg : Config) (st : NodeState) : NodeState :=
  if consensusPossible cfg then
    { st with x := some Value.one, decided := some true }
  else
    { st with decided := some false }

/-- Whether an event is a delivery of a vote message to the node's
message-ingestion endpoint. -/
def isMsgReq : Event → Bool
  | Event.msgReq _ => true
  | _ => false

/-- Every component of the node's state except the inbound message
buffer: the decision-relevant part. -/
def core (s : Sys) : Config × NodeState × Bool × Phase :=
  (s.cfg, s.currentState, s.isRunning, s.phase)

/-- An example vote message. -/
def exMsg : VoteMsg :=
  ⟨"vote", some Value.one, some 0⟩

/-- An example faulty node whose internal fields hold non-null values,
to exercise the masking of the state snapshot. -/
def exFaultySys : Sys :=
  { cfg := ⟨1, 3, 1, Value.zero, true⟩
    currentState := { killed := false, x := some Value.zero, decided := some true, k := some 5 }
    isRunning := false
    receivedMessages := []
    phase := Phase.idle }

/-- An example stopped node. -/
def exKilledSys : Sys :=
  { cfg := ⟨0, 4, 1, Value.zero, false⟩
    currentState := { killed := true, x := some Value.zero, decided := some false, k := some 0 }
    isRunning := false
    receivedMessages := [exMsg]
    phase := Phase.idle }

lemma loopCheck_eq (s : Sys) :
    loopCheck s =
      if loopCond s (roundBound s.cfg) then { s with phase := Phase.sleeping }
      else { s with phase := Phase.done
                    currentState := forceFinality s.cfg s.currentState } := by
  unfold loopCheck roundBound forceFinality
  by_cases h : consensusPossible s.cfg <;> simp [h]

lemma run_nil (s : Sys) : run [] s = s := rfl

lemma run_cons (e : Event) (t : List Event) (s : Sys) :
    run (e :: t) s = run t (step e s) := rfl

lemma run_append (a b : List Event) (s : Sys) :
    run (a ++ b) s = run b (run a s) :=
  List.foldl_append _ _ _ _

lemma length_filter_ne_range (N id : Nat) (h : id < N) :
    ((List.range N).filter (fun i => i != id)).length = N - 1 := by
  induction N with
  | zero => omega
  | succ n ih =>
    rw [List.range_succ, List.filter_append, List.length_append]
    by_cases hid : id = n
    · subst hid
      have h1 : (List.range id).filter (fun i => i != id) = List.range id := by
        apply List.filter_eq_self.mpr
        intro a ha
        have : a < id := List.mem_range.mp ha
        simp
        omega
      simp [h1]
    · have hlt : id < n := by omega
      have h2 : [n].filter (fun i => i != id) = [n] := by
        simp
        omega
      rw [ih hlt, h2]
      simp
      omega

lemma broadcastVote_length (nodeId N : Nat) (v : Option Value) (r : Option Nat)
    (h : nodeId < N) :
    (broadcastVote nodeId N v r).length = N - 1 := by
  unfold broadcastVote
  rw [List.length_map]
  exact length_filter_ne_range N nodeId h

lemma run_deliveries (oks : List Bool) : ∀ s : Sys,
    s.phase = Phase.broadcasting oks.length →
    run (oks.map Event.deliveryResolved) s = { s with phase := Phase.broadcasting 0 } := by
  induction oks with
  | nil =>
    intro s h
    simp only [List.length_nil] at h
    rw [List.map_nil, run_nil, ← h]
  | cons ok rest ih =>
    intro s h
    rw [List.map_cons, run_cons]
    have hstep : step (Event.deliveryResolved ok) s =
        { s with phase := Phase.broadcasting rest.length } := by
      simp [step, h]
    rw [hstep, ih]
    rfl

lemma run_roundTrace (oks : List Bool) (s : Sys)
    (hp : s.phase = Phase.sleeping) (hlen : oks.length = s.cfg.N - 1)
    (hid : s.cfg.nodeId < s.cfg.N) :
    run (roundTrace oks) s =
      loopCheck { s with currentState :=
        { s.currentState with k := s.currentState.k.map (· + 1) } } := by
  have hb : (broadcastVote s.cfg.nodeId s.cfg.N s.currentState.x s.currentState.k).length
      = oks.length := by
    rw [broadcastVote_length _ _ _ _ hid, hlen]
  have h1 : step Event.timerFire s = { s with phase := Phase.broadcasting oks.length } := by
    simp [step, hp, hb]
  rw [roundTrace, run_cons, h1, run_append, run_deliveries _ _ rfl, run_cons, run_nil]
  rfl

lemma run_roundsTrace (okss : List (List Bool)) : ∀ (s : Sys) (j : Nat),
    okss ≠ [] →
    s.phase = Phase.sleeping → s.isRunning = true →
    s.currentState.killed = false → s.currentState.k = some j →
    j + okss.length = roundBound s.cfg →
    (∀ l ∈ okss, l.length = s.cfg.N - 1) → s.cfg.nodeId < s.cfg.N →
    run (roundsTrace okss) s =
      { s with phase := Phase.done
               currentState := forceFinality s.cfg
                 { s.currentState with k := some (roundBound s.cfg) } } := by
  induction okss with
  | nil =>
    intro s j hne
    exact absurd rfl hne
  | cons l rest ih =>
    intro s j _ hp hrun hkill hk hbound hall hid
    have hone : run (roundTrace l) s =
        loopCheck { s with currentState := { s.currentState with k := some (j + 1) } } := by
      rw [run_roundTrace l s hp (hall l (List.mem_cons_self l rest)) hid, hk]
      rfl
    have hflat : roundsTrace (l :: rest) = roundTrace l ++ roundsTrace rest := by
      simp [roundsTrace]
    rw [hflat, run_append, hone]
    rcases rest with _ | ⟨l2, rest2⟩
    · have hb1 : j + 1 = roundBound s.cfg := by
        simp only [List.length_cons, List.length_nil] at hbound
        omega
      have hstop : ¬ (j + 1 < roundBound s.cfg) := by omega
      have hrt : roundsTrace ([] : List (List Bool)) = [] := rfl
      rw [hrt, run_nil, loopCheck_eq]
      simp [loopCond, hrun, hkill, hstop, hb1]
    · have hlt : j + 1 < roundBound s.cfg := by
        simp only [List.length_cons] at hbound
        omega
      rw [loopCheck_eq]
      simp [loopCond, hrun, hkill, hlt]
      have hnext := ih
        { s with currentState := { s.currentState with killed := false, k := some (j + 1) }
                 isRunning := true
                 phase := Phase.sleeping } (j + 1)
        (by simp) rfl rfl rfl rfl
        (by show j + 1 + (l2 :: rest2).length = roundBound s.cfg
            simp only [List.length_cons] at hbound ⊢
            omega)
        (by intro a ha
            exact hall a (List.mem_cons_of_mem l ha))
        hid
      rw [hnext]

lemma start_fresh (cfg : Config) (hf : cfg.isFaulty = false) :
    step Event.startReq (initSys cfg) =
      { initSys cfg with isRunning := true, phase := Phase.sleeping } := by
  simp [step, startHandler, hf, initSys, initState, loopCheck, loopCond]

lemma full_run_eq (cfg : Config) (okss : List (List Bool))
    (hf : cfg.isFaulty = false) (hid : cfg.nodeId < cfg.N)
    (hlen : okss.length = roundBound cfg) (hne : okss ≠ [])
    (hall : ∀ l ∈ okss, l.length = cfg.N - 1) :
    run (Event.startReq :: roundsTrace okss) (initSys cfg) =
      { initSys cfg with
          isRunning := true
          phase := Phase.done
          currentState := forceFinality cfg
            { initState cfg with k := some (roundBound cfg) } } := by
  rw [run_cons, start_fresh cfg hf]
  rw [run_roundsTrace okss
    { initSys cfg with isRunning := true, phase := Phase.sleeping } 0
    hne rfl rfl rfl
    (by show (initState cfg).k = some 0
        simp [initState, hf])
    (by show 0 + okss.length = roundBound cfg
        omega)
    hall hid]
  rfl

/-- Claim C2: for every non-faulty node constructed with `2 * F < N`,
after a successful start (200) and the round loop running to completion
without a stop — 2 rounds, each waiting, broadcasting to the `N - 1`
peers with any delivery outcomes, and advancing `k` by 1 — the final
state has `decided = true`, `x = 1` and `k = 2`. -/
theorem quick_consensus_final_state (cfg : Config) (okss : List (List Bool))
    (hf : cfg.isFaulty = false) (hq : 2 * cfg.F < cfg.N)
    (hid : cfg.nodeId < cfg.N) (hlen : okss.length = 2)
    (hall : ∀ l ∈ okss, l.length = cfg.N - 1) :
    (startHandler (initSys cfg)).1 = ⟨200, "Consensus algorithm started"⟩ ∧
    (run (Event.startReq :: roundsTrace okss) (initSys cfg)).currentState.decided
      = some true ∧
    (run (Event.startReq :: roundsTrace okss) (initSys cfg)).currentState.x
      = some Value.one ∧
    (run (Event.startReq :: roundsTrace okss) (initSys cfg)).currentState.k
      = some 2 := by
  have hcp : consensusPossible cfg = true := by
    simp [consensusPossible, hq]
  have hrb : roundBound cfg = 2 := by simp [roundBound, hcp]
  have h := full_run_eq cfg okss hf hid (by rw [hlen, hrb])
    (by rintro rfl; simp at hlen) hall
  refine ⟨by simp [startHandler, initSys, hf], ?_, ?_, ?_⟩ <;>
    rw [h] <;> simp [forceFinality, hcp, hrb, initState, hf]

/-- Witness for C2 at `N = 3`, `F = 1`, node 0, initial value 0, with one
failed delivery in each round. -/
theorem quick_consensus_final_state_witness :
    (run (Event.startReq :: roundsTrace [[true, false], [false, true]])
        (initSys ⟨0, 3, 1, Value.zero, false⟩)).currentState.decided = some true ∧
    (run (Event.startReq :: roundsTrace [[true, false], [false, true]])
        (initSys ⟨0, 3, 1, Value.zero, false⟩)).currentState.x = some Value.one ∧
    (run (Event.startReq :: roundsTrace [[true, false], [false, true]])
        (initSys ⟨0, 3, 1, Value.zero, false⟩)).currentState.k = some 2 :=
  (quick_consensus_final_state ⟨0, 3, 1, Value.zero, false⟩
    [[true, false], [false, true]] rfl (by decide) (by decide) rfl (by decide)).2

/-- Claim C3: for every non-faulty node constructed with `2 * F ≥ N`,
after a successful start and the round loop running to completion
without a stop — 11 rounds (`k` from 0 through 10 inclusive) — the final
state has `decided = false`, `k = 11`, and `x` unchanged at the initial
value, with `killed` still false. -/
theorem fault_exceeded_final_state (cfg : Config) (okss : List (List Bool))
    (hf : cfg.isFaulty = false) (hq : cfg.N ≤ 2 * cfg.F)
    (hid : cfg.nodeId < cfg.N) (hlen : okss.length = 11)
    (hall : ∀ l ∈ okss, l.length = cfg.N - 1) :
    (startHandler (initSys cfg)).1 = ⟨200, "Consensus algorithm started"⟩ ∧
    (run (Event.startReq :: roundsTrace okss) (initSys cfg)).currentState.decided
      = some false ∧
    (run (Event.startReq :: roundsTrace okss) (initSys cfg)).currentState.k
      = some 11 ∧
    (run (Event.startReq :: roundsTrace okss) (initSys cfg)).currentState.x
      = some cfg.initialValue ∧
    (run (Event.startReq :: roundsTrace okss) (initSys cfg)).currentState.killed
      = false := by
  have hcp : consensusPossible cfg = false := by
    simp [consensusPossible]
    omega
  have hrb : roundBound cfg = 11 := by simp [roundBound, hcp]
  have h := full_run_eq cfg okss hf hid (by rw [hlen, hrb])
    (by rintro rfl; simp at hlen) hall
  refine ⟨by simp [startHandler, initSys, hf], ?_, ?_, ?_, ?_⟩ <;>
    rw [h] <;> simp [forceFinality, hcp, hrb, initState, hf]

/-- Witness for C3 at the spec scenario `N = 3`, `F = 2`, node 0, initial
value 1. -/
theorem fault_exceeded_final_state_witness :
    (run (Event.startReq :: roundsTrace (List.replicate 11 [true, true]))
        (initSys ⟨0, 3, 2, Value.one, false⟩)).currentState.decided = some false ∧
    (run (Event.startReq :: roundsTrace (List.replicate 11 [true, true]))
        (initSys ⟨0, 3, 2, Value.one, false⟩)).currentState.k = some 11 ∧
    (run (Event.startReq :: roundsTrace (List.replicate 11 [true, true]))
        (initSys ⟨0, 3, 2, Value.one, false⟩)).currentState.x = some Value.one ∧
    (run (Event.startReq :: roundsTrace (List.replicate 11 [true, true]))
        (initSys ⟨0, 3, 2, Value.one, false⟩)).currentState.killed = false :=
  (fault_exceeded_final_state ⟨0, 3, 2, Value.one, false⟩
    (List.replicate 11 [true, true]) rfl (by decide) (by decide) (by decide)
    (by decide)).2

lemma forceFinality_killed (cfg : Config) (st : NodeState) :
    (forceFinality cfg st).killed = st.killed := by
  unfold forceFinality
  split <;> rfl

lemma forceFinality_k (cfg : Config) (st : NodeState) :
    (forceFinality cfg st).k = st.k := by
  unfold forceFinality
  split <;> rfl

lemma forceFinality_decided (cfg : Config) (st : NodeState) :
    (forceFinality cfg st).decided = some (consensusPossible cfg) := by
  unfold forceFinality
  by_cases h : consensusPossible cfg <;> simp [h]

lemma forceFinality_x_quick (cfg : Config) (st : NodeState)
    (h : consensusPossible cfg = true) :
    (forceFinality cfg st).x = some Value.one := by
  simp [forceFinality, h]

lemma forceFinality_x_slow (cfg : Config) (st : NodeState)
    (h : consensusPossible cfg = false) :
    (forceFinality cfg st).x = st.x := by
  simp [forceFinality, h]

/-- Claim C1 counterexample: at `N = 4`, `F = 1`, node 0, non-faulty,
stopping right after a successful start does not keep `decided` null:
once the in-flight round resumes and the loop exits, the forced-finality
lines still run, writing `x = 1` and `decided = true` after `killed` is
already true. -/
theorem stop_midrun_cex :
    (run ([Event.startReq, Event.stopReq] ++ roundTrace [true, true, true])
        (initSys ⟨0, 4, 1, Value.zero, false⟩)).currentState.killed = true ∧
    (run ([Event.startReq, Event.stopReq] ++ roundTrace [true, true, true])
        (initSys ⟨0, 4, 1, Value.zero, false⟩)).currentState.decided = some true ∧
    (run ([Event.startReq, Event.stopReq] ++ roundTrace [true, true, true])
        (initSys ⟨0, 4, 1, Value.zero, false⟩)).currentState.x = some Value.one := by
  decide

/-- Claim C1 (amended): stopping a non-faulty node right after a
successful start makes the loop observe the kill at its next condition
check and exit after the one in-flight round (`k` only reaches 1), but
the forced-finality lines after the loop still execute: `decided` is set
to `some true` in the quick branch (which also writes `x = 1`) and to
`some false` in the fault-exceeded branch (leaving `x` at the initial
value), with `killed = true`. -/
theorem stop_midrun_exits_loop_but_still_decides (cfg : Config) (oks : List Bool)
    (hf : cfg.isFaulty = false) (hid : cfg.nodeId < cfg.N)
    (hlen : oks.length = cfg.N - 1) :
    (run ([Event.startReq, Event.stopReq] ++ roundTrace oks)
        (initSys cfg)).currentState.killed = true ∧
    (run ([Event.startReq, Event.stopReq] ++ roundTrace oks)
        (initSys cfg)).phase = Phase.done ∧
    (run ([Event.startReq, Event.stopReq] ++ roundTrace oks)
        (initSys cfg)).currentState.k = some 1 ∧
    (run ([Event.startReq, Event.stopReq] ++ roundTrace oks)
        (initSys cfg)).currentState.decided = some (consensusPossible cfg) ∧
    (consensusPossible cfg = true →
      (run ([Event.startReq, Event.stopReq] ++ roundTrace oks)
        (initSys cfg)).currentState.x = some Value.one) ∧
    (consensusPossible cfg = false →
      (run ([Event.startReq, Event.stopReq] ++ roundTrace oks)
        (initSys cfg)).currentState.x = some cfg.initialValue) := by
  have hmain : run ([Event.startReq, Event.stopReq] ++ roundTrace oks) (initSys cfg) =
      { initSys cfg with
          isRunning := false
          phase := Phase.done
          currentState := forceFinality cfg
            { initState cfg with killed := true, k := some 1 } } := by
    rw [run_append]
    have h0 : run [Event.startReq, Event.stopReq] (initSys cfg) =
        step Event.stopReq (step Event.startReq (initSys cfg)) := rfl
    rw [h0, start_fresh cfg hf]
    have h2 : step Event.stopReq
          { initSys cfg with isRunning := true, phase := Phase.sleeping } =
        { initSys cfg with
            isRunning := false
            phase := Phase.sleeping
            currentState := { initState cfg with killed := true } } := by
      simp [step, stopHandler, initSys, initState]
    rw [h2, run_roundTrace _ _ rfl (by exact hlen) (by exact hid), loopCheck_eq]
    simp [loopCond, initState, hf, forceFinality]
    rfl
  rw [hmain]
  refine ⟨by simp [forceFinality_killed], rfl, by simp [forceFinality_k], ?_, ?_, ?_⟩
  · simp [forceFinality_decided]
  · intro h
    simp [forceFinality_x_quick _ _ h]
  · intro h
    simp [forceFinality_x_slow _ _ h, initState, hf]

/-- Witness for the amended C1 at `N = 4`, `F = 1` (quick branch), node 0,
initial value 0. -/
theorem stop_midrun_exits_loop_but_still_decides_witness :
    (run ([Event.startReq, Event.stopReq] ++ roundTrace [true, true, true])
        (initSys ⟨0, 4, 1, Value.zero, false⟩)).currentState.killed = true ∧
    (run ([Event.startReq, Event.stopReq] ++ roundTrace [true, true, true])
        (initSys ⟨0, 4, 1, Value.zero, false⟩)).phase = Phase.done ∧
    (run ([Event.startReq, Event.stopReq] ++ roundTrace [true, true, true])
        (initSys ⟨0, 4, 1, Value.zero, false⟩)).currentState.k = some 1 ∧
    (run ([Event.startReq, Event.stopReq] ++ roundTrace [true, true, true])
        (initSys ⟨0, 4, 1, Value.zero, false⟩)).currentState.decided = some true :=
  have h := stop_midrun_exits_loop_but_still_decides ⟨0, 4, 1, Value.zero, false⟩
    [true, true, true] rfl (by decide) (by decide)
  ⟨h.1, h.2.1, h.2.2.1, h.2.2.2.1⟩

lemma loopCheck_cfg (s : Sys) : (loopCheck s).cfg = s.cfg := by
  unfold loopCheck
  split_ifs <;> rfl

lemma loopCheck_isRunning (s : Sys) : (loopCheck s).isRunning = s.isRunning := by
  unfold loopCheck
  split_ifs <;> rfl

lemma loopCheck_killed (s : Sys) :
    (loopCheck s).currentState.killed = s.currentState.killed := by
  unfold loopCheck
  split_ifs <;> rfl

lemma loopCheck_k (s : Sys) : (loopCheck s).currentState.k = s.currentState.k := by
  unfold loopCheck
  split_ifs <;> rfl

lemma loopCheck_phase_cases (s : Sys) :
    (loopCheck s).phase = Phase.sleeping ∨ (loopCheck s).phase = Phase.done := by
  unfold loopCheck
  split_ifs <;> simp

/-- Claim C4: for every node constructed with the faulty flag, whatever
internal state it has reached: the status query answers 500 "faulty",
the state snapshot masks `x`, `decided`, `k` to null while reporting the
true `killed` value, and every start request fails with 400 and changes
nothing. -/
theorem faulty_node_masked_and_never_starts (s : Sys) (hf : s.cfg.isFaulty = true) :
    statusHandler s = ⟨500, "faulty"⟩ ∧
    getStateHandler s =
      { killed := s.currentState.killed, x := none, decided := none, k := none } ∧
    startHandler s = (⟨400, "Cannot start"⟩, s) :=
  ⟨by simp [statusHandler, hf],
   by simp [getStateHandler, hf],
   by simp [startHandler, hf]⟩

/-- Witness for C4 on a faulty node holding non-null internal values. -/
theorem faulty_node_masked_and_never_starts_witness :
    statusHandler exFaultySys = ⟨500, "faulty"⟩ ∧
    getStateHandler exFaultySys =
      { killed := false, x := none, decided := none, k := none } ∧
    startHandler exFaultySys = (⟨400, "Cannot start"⟩, exFaultySys) :=
  faulty_node_masked_and_never_starts exFaultySys rfl

/-- Claim C5: start answers 400 "Cannot start" with no state change
whenever the node is faulty or already running; otherwise it answers
200, marks the node running — so an immediate second start fails with
400 and no state change — and the round loop proceeds past its first
check (asleep in its first round, or already past the loop). -/
theorem start_preconditions (s : Sys) :
    (s.cfg.isFaulty = true ∨ s.isRunning = true →
      startHandler s = (⟨400, "Cannot start"⟩, s)) ∧
    (s.cfg.isFaulty = false → s.isRunning = false →
      (startHandler s).1 = ⟨200, "Consensus algorithm started"⟩ ∧
      (startHandler s).2.isRunning = true ∧
      ((startHandler s).2.phase = Phase.sleeping ∨
        (startHandler s).2.phase = Phase.done) ∧
      startHandler (startHandler s).2 = (⟨400, "Cannot start"⟩, (startHandler s).2)) := by
  constructor
  · intro h
    rcases h with h | h <;> simp [startHandler, h]
  · intro hf hr
    have h2 : (startHandler s).2 = loopCheck { s with isRunning := true } := by
      simp [startHandler, hf, hr]
    have hrun2 : (startHandler s).2.isRunning = true := by
      rw [h2, loopCheck_isRunning]
    refine ⟨by simp [startHandler, hf, hr], hrun2, ?_, ?_⟩
    · rw [h2]
      exact loopCheck_phase_cases _
    · have hfail : ∀ s2 : Sys, s2.isRunning = true →
          startHandler s2 = (⟨400, "Cannot start"⟩, s2) := by
        intro s2 h
        simp [startHandler, h]
      exact hfail _ hrun2

/-- Witness for C5: a fresh non-faulty node starts once, and the
immediate second start fails. -/
theorem start_preconditions_witness :
    (startHandler (initSys ⟨0, 4, 1, Value.zero, false⟩)).1 =
      ⟨200, "Consensus algorithm started"⟩ ∧
    (startHandler (startHandler (initSys ⟨0, 4, 1, Value.zero, false⟩)).2) =
      (⟨400, "Cannot start"⟩, (startHandler (initSys ⟨0, 4, 1, Value.zero, false⟩)).2) ∧
    startHandler exFaultySys = (⟨400, "Cannot start"⟩, exFaultySys) :=
  have h := (start_preconditions (initSys ⟨0, 4, 1, Value.zero, false⟩)).2 rfl rfl
  ⟨h.1, h.2.2.2, (start_preconditions exFaultySys).1 (Or.inl rfl)⟩

/-- Claim C6: stop on a node with `killed = false` answers 200 and sets
`killed = true` (also clearing `isRunning`); stop on a node with
`killed = true` answers 400 "already stopped" with no state change; and
the second of two successive stop calls always fails with 400. -/
theorem stop_semantics (s : Sys) :
    (s.currentState.killed = false →
      stopHandler s = (⟨200, "Consensus algorithm stopped"⟩,
        { s with isRunning := false
                 currentState := { s.currentState with killed := true } })) ∧
    (s.currentState.killed = true →
      stopHandler s = (⟨400, "Node already stopped"⟩, s)) ∧
    (stopHandler (stopHandler s).2).1 = ⟨400, "Node already stopped"⟩ := by
  refine ⟨fun h => by simp [stopHandler, h], fun h => by simp [stopHandler, h], ?_⟩
  by_cases h : s.currentState.killed = true
  · simp [stopHandler, h]
  · simp only [Bool.not_eq_true] at h
    simp [stopHandler, h]

/-- Witness for C6: stopping a fresh node succeeds and sets `killed`;
the stop after it fails. -/
theorem stop_semantics_witness :
    stopHandler (initSys ⟨0, 4, 1, Value.zero, false⟩) =
      (⟨200, "Consensus algorithm stopped"⟩,
        { initSys ⟨0, 4, 1, Value.zero, false⟩ with
            isRunning := false
            currentState :=
              { initState ⟨0, 4, 1, Value.zero, false⟩ with killed := true } }) ∧
    (stopHandler (stopHandler (initSys ⟨0, 4, 1, Value.zero, false⟩)).2).1 =
      ⟨400, "Node already stopped"⟩ ∧
    stopHandler exKilledSys = (⟨400, "Node already stopped"⟩, exKilledSys) :=
  have h := stop_semantics (initSys ⟨0, 4, 1, Value.zero, false⟩)
  ⟨h.1 rfl, h.2.2, (stop_semantics exKilledSys).2.1 rfl⟩

/-- Claim C7: posting a message to a killed node answers 503 "Node is
stopped" and leaves the buffer (and everything else) unchanged; posting
to a non-killed node answers 200 and appends the message at the end of
the inbound buffer, dropping and reordering nothing. -/
theorem message_ingestion (m : VoteMsg) (s : Sys) :
    (s.currentState.killed = true →
      messageHandler m s = (⟨503, "Node is stopped"⟩, s)) ∧
    (s.currentState.killed = false →
      messageHandler m s = (⟨200, "Message received"⟩,
        { s with receivedMessages := s.receivedMessages ++ [m] })) :=
  ⟨fun h => by simp [messageHandler, h], fun h => by simp [messageHandler, h]⟩

/-- Witness for C7: a fresh node buffers the message; a killed node
rejects it without buffering. -/
theorem message_ingestion_witness :
    messageHandler exMsg (initSys ⟨0, 4, 1, Value.zero, false⟩) =
      (⟨200, "Message received"⟩,
        { initSys ⟨0, 4, 1, Value.zero, false⟩ with receivedMessages := [exMsg] }) ∧
    messageHandler exMsg exKilledSys = (⟨503, "Node is stopped"⟩, exKilledSys) :=
  ⟨(message_ingestion exMsg (initSys ⟨0, 4, 1, Value.zero, false⟩)).2 rfl,
   (message_ingestion exMsg exKilledSys).1 rfl⟩

lemma step_killed_mono (e : Event) (s : Sys) (h : s.currentState.killed = true) :
    (step e s).currentState.killed = true := by
  cases e with
  | statusReq => exact h
  | getStateReq => exact h
  | msgReq m =>
      simp [step, messageHandler, h]
  | startReq =>
      simp only [step, startHandler]
      split_ifs
      · exact h
      · rw [loopCheck_killed]
        exact h
  | stopReq =>
      simp [step, stopHandler, h]
  | timerFire =>
      cases hp : s.phase <;> simp [step, hp, h]
  | deliveryResolved ok =>
      cases hp : s.phase with
      | broadcasting n => cases n <;> simp [step, hp, h]
      | idle => simp [step, hp, h]
      | sleeping => simp [step, hp, h]
      | done => simp [step, hp, h]
  | loopResume =>
      cases hp : s.phase with
      | broadcasting n =>
          cases n with
          | zero =>
              simp only [step, hp]
              rw [loopCheck_killed]
              exact h
          | succ n => simp [step, hp, h]
      | idle => simp [step, hp, h]
      | sleeping => simp [step, hp, h]
      | done => simp [step, hp, h]

/-- Claim C8: over every sequence of operations (requests and round-loop
steps), `killed` is never reset: once true it stays true for the rest of
the run, i.e. it only ever transitions false to true. -/
theorem killed_monotone (s : Sys) (t : List Event) (h : s.currentState.killed = true) :
    (run t s).currentState.killed = true := by
  induction t generalizing s with
  | nil => exact h
  | cons e t ih => exact ih (step e s) (step_killed_mono e s h)

/-- Witness for C8: a stopped node stays stopped across further
requests and loop steps. -/
theorem killed_monotone_witness :
    (run [Event.startReq, Event.msgReq exMsg, Event.stopReq, Event.timerFire]
      exKilledSys).currentState.killed = true :=
  killed_monotone exKilledSys
    [Event.startReq, Event.msgReq exMsg, Event.stopReq, Event.timerFire] rfl

lemma step_preserves_k (e : Event) (s : Sys) (hne : e ≠ Event.loopResume) :
    (step e s).currentState.k = s.currentState.k := by
  cases e with
  | statusReq => rfl
  | getStateReq => rfl
  | msgReq m =>
      simp only [step, messageHandler]
      split_ifs <;> rfl
  | startReq =>
      simp only [step, startHandler]
      split_ifs
      · rfl
      · rw [loopCheck_k]
  | stopReq =>
      simp only [step, stopHandler]
      split_ifs <;> rfl
  | timerFire =>
      cases hp : s.phase <;> simp [step, hp]
  | deliveryResolved ok =>
      cases hp : s.phase with
      | broadcasting n => cases n <;> simp [step, hp]
      | idle => simp [step, hp]
      | sleeping => simp [step, hp]
      | done => simp [step, hp]
  | loopResume => exact absurd rfl hne

lemma loopResume_stuck (s : Sys) (hp : s.phase ≠ Phase.broadcasting 0) :
    step Event.loopResume s = s := by
  cases hp2 : s.phase with
  | broadcasting n =>
      cases n with
      | zero => exact absurd hp2 hp
      | succ n => simp [step, hp2]
  | idle => simp [step, hp2]
  | sleeping => simp [step, hp2]
  | done => simp [step, hp2]

/-- Claim C9: in every round the broadcast attempts one vote delivery,
carrying the current value and round, to each of the `N - 1` other
nodes; each attempt resolves whether it succeeded or failed (failures
are swallowed, never failing the loop); the timer hands the loop a
pending count equal to those `N - 1` attempts; and `k` advances only on
the loop resumption that requires every pending delivery resolved. -/
theorem broadcast_round_contract (nodeId N : Nat) (v : Option Value) (r : Option Nat)
    (hn : nodeId < N) :
    (broadcastVote nodeId N v r).length = N - 1 ∧
    (∀ p ∈ broadcastVote nodeId N v r, p.1 ≠ nodeId ∧ p.2 = ⟨"vote", v, r⟩) ∧
    (∀ s : Sys, s.phase = Phase.sleeping → (step Event.timerFire s).phase =
      Phase.broadcasting (broadcastVote s.cfg.nodeId s.cfg.N s.currentState.x
        s.currentState.k).length) ∧
    (∀ (s : Sys) (n : Nat) (ok : Bool), s.phase = Phase.broadcasting (n + 1) →
      step (Event.deliveryResolved ok) s = { s with phase := Phase.broadcasting n }) ∧
    (∀ (s : Sys) (e : Event), (step e s).currentState.k ≠ s.currentState.k →
      e = Event.loopResume ∧ s.phase = Phase.broadcasting 0) := by
  refine ⟨broadcastVote_length nodeId N v r hn, ?_, ?_, ?_, ?_⟩
  · intro p hp
    unfold broadcastVote at hp
    simp only [List.mem_map, List.mem_filter, List.mem_range] at hp
    obtain ⟨i, ⟨hi, hine⟩, rfl⟩ := hp
    exact ⟨by simpa using hine, rfl⟩
  · intro s hp
    simp [step, hp]
  · intro s n ok hp
    simp [step, hp]
  · intro s e hk
    by_cases he : e = Event.loopResume
    · subst he
      by_cases hp : s.phase = Phase.broadcasting 0
      · exact ⟨rfl, hp⟩
      · rw [loopResume_stuck s hp] at hk
        exact absurd rfl hk
    · rw [step_preserves_k e s he] at hk
      exact absurd rfl hk

/-- Witness for C9: three attempts for node 0 in a network of four. -/
theorem broadcast_round_contract_witness :
    (broadcastVote 0 4 (some Value.zero) (some 0)).length = 4 - 1 :=
  (broadcast_round_contract 0 4 (some Value.zero) (some 0) (by decide)).1

lemma core_msg_step (m : VoteMsg) (s : Sys) :
    core (step (Event.msgReq m) s) = core s := by
  simp only [step, messageHandler]
  split_ifs <;> rfl

lemma core_step_congr (e : Event) (s1 s2 : Sys) (h : core s1 = core s2) :
    core (step e s1) = core (step e s2) := by
  obtain ⟨c1, cs1, ir1, rm1, ph1⟩ := s1
  obtain ⟨c2, cs2, ir2, rm2, ph2⟩ := s2
  simp only [core, Prod.mk.injEq] at h
  obtain ⟨hc, hcs, hir, hph⟩ := h
  subst hc
  subst hcs
  subst hir
  subst hph
  cases e with
  | statusReq => rfl
  | getStateReq => rfl
  | msgReq m =>
      simp only [step, messageHandler]
      split_ifs <;> rfl
  | startReq =>
      simp only [step, startHandler]
      split_ifs
      · rfl
      · simp only [core, loopCheck, loopCond]
        split_ifs <;> rfl
  | stopReq =>
      simp only [step, stopHandler]
      split_ifs <;> rfl
  | timerFire => cases ph1 <;> rfl
  | deliveryResolved ok =>
      cases ph1 with
      | broadcasting n => cases n <;> rfl
      | idle => rfl
      | sleeping => rfl
      | done => rfl
  | loopResume =>
      cases ph1 with
      | broadcasting n =>
          cases n with
          | zero =>
              simp only [step, core, loopCheck, loopCond]
              split_ifs <;> rfl
          | succ n => rfl
      | idle => rfl
      | sleeping => rfl
      | done => rfl

lemma core_run_congr (t : List Event) : ∀ s1 s2 : Sys, core s1 = core s2 →
    core (run t s1) = core (run t s2) := by
  induction t with
  | nil =>
      intro s1 s2 h
      exact h
  | cons e t ih =>
      intro s1 s2 h
      exact ih _ _ (core_step_congr e s1 s2 h)

lemma filter_cons_nonmsg (e : Event) (t : List Event) (h : isMsgReq e = false) :
    (e :: t).filter (fun x => !isMsgReq x) = e :: t.filter (fun x => !isMsgReq x) := by
  simp [List.filter_cons, h]

lemma filter_cons_msg (m : VoteMsg) (t : List Event) :
    (Event.msgReq m :: t).filter (fun x => !isMsgReq x) =
      t.filter (fun x => !isMsgReq x) := by
  simp [List.filter_cons, isMsgReq]

lemma core_run_filter (t : List Event) : ∀ s : Sys,
    core (run t s) = core (run (t.filter (fun x => !isMsgReq x)) s) := by
  induction t with
  | nil =>
      intro s
      rfl
  | cons e t ih =>
      intro s
      cases e with
      | msgReq m =>
          rw [filter_cons_msg, run_cons, ih (step (Event.msgReq m) s)]
          exact core_run_congr _ _ _ (core_msg_step m s)
      | statusReq =>
          rw [filter_cons_nonmsg Event.statusReq t rfl, run_cons, run_cons]
          exact ih _
      | getStateReq =>
          rw [filter_cons_nonmsg Event.getStateReq t rfl, run_cons, run_cons]
          exact ih _
      | startReq =>
          rw [filter_cons_nonmsg Event.startReq t rfl, run_cons, run_cons]
          exact ih _
      | stopReq =>
          rw [filter_cons_nonmsg Event.stopReq t rfl, run_cons, run_cons]
          exact ih _
      | timerFire =>
          rw [filter_cons_nonmsg Event.timerFire t rfl, run_cons, run_cons]
          exact ih _
      | deliveryResolved ok =>
          rw [filter_cons_nonmsg (Event.deliveryResolved ok) t rfl, run_cons, run_cons]
          exact ih _
      | loopResume =>
          rw [filter_cons_nonmsg Event.loopResume t rfl, run_cons, run_cons]
          exact ih _

/-- Claim C10: the node's decision outputs are independent of ingested
messages: two runs from the same fresh node whose event traces agree on
everything except the vote messages delivered to the ingestion endpoint
end with identical `x`, `decided` and `k` (the buffer is written but
never consumed by the decision logic). -/
theorem decision_independent_of_messages (cfg : Config) (t1 t2 : List Event)
    (h : t1.filter (fun x => !isMsgReq x) = t2.filter (fun x => !isMsgReq x)) :
    (run t1 (initSys cfg)).currentState.x = (run t2 (initSys cfg)).currentState.x ∧
    (run t1 (initSys cfg)).currentState.decided
      = (run t2 (initSys cfg)).currentState.decided ∧
    (run t1 (initSys cfg)).currentState.k = (run t2 (initSys cfg)).currentState.k := by
  have h1 := core_run_filter t1 (initSys cfg)
  have h2 := core_run_filter t2 (initSys cfg)
  rw [h] at h1
  have hcore := h1.trans h2.symm
  simp only [core, Prod.mk.injEq] at hcore
  obtain ⟨-, hcs, -, -⟩ := hcore
  rw [hcs]
  exact ⟨rfl, rfl, rfl⟩

/-- Witness for C10: a run with one delivered vote and a run with none
produce the same decision outputs. -/
theorem decision_independent_of_messages_witness :
    (run [Event.msgReq exMsg, Event.startReq]
        (initSys ⟨0, 4, 1, Value.zero, false⟩)).currentState.x =
      (run [Event.startReq] (initSys ⟨0, 4, 1, Value.zero, false⟩)).currentState.x ∧
    (run [Event.msgReq exMsg, Event.startReq]
        (initSys ⟨0, 4, 1, Value.zero, false⟩)).currentState.decided =
      (run [Event.startReq] (initSys ⟨0, 4, 1, Value.zero, false⟩)).currentState.decided ∧
    (run [Event.msgReq exMsg, Event.startReq]
        (initSys ⟨0, 4, 1, Value.zero, false⟩)).currentState.k =
      (run [Event.startReq] (initSys ⟨0, 4, 1, Value.zero, false⟩)).currentState.k :=
  decision_independent_of_messages ⟨0, 4, 1, Value.zero, false⟩
    [Event.msgReq exMsg, Event.startReq] [Event.startReq] (by decide)

end Workshop5
